import Mathlib

/-!
Verification of the email classification-and-deduplication pipeline of this
repository against its specification.

The embedding translates the Python sources:
  * `skills/email-helper/scripts/db_manager.py`  (class `EmailDatabase`)
  * `skills/email-helper/scripts/classify.py`    (class `OllamaClassifier`,
    function `classify_emails`)
  * `skills/email-helper/scripts/sync.py`        (function `sync_emails`)

Modelling decisions, stated once here:

  * SQLite connection state is a pair of table snapshots: `live` is the view
    the connection sees (it includes uncommitted writes of the open implicit
    transaction, as in Python's sqlite3 module with its default isolation
    level), `committed` is what is durable. `conn.commit()` copies `live`
    into `committed`. Statements read and write `live`.
  * `CURRENT_TIMESTAMP` is an abstract clock value `now : Nat` supplied to
    each mutating operation.
  * Python string operations are re-implemented over `List Char` so that the
    kernel can evaluate them on concrete inputs: `str.lower()` is ASCII case
    folding (every token the classifier recognizes is ASCII or Chinese, and
    Chinese has no case), `str.strip()` removes whitespace at both ends,
    `s.split('\n')` splits on newline keeping empty pieces, and
    `'pat' in s` is substring containment. SQLite's BINARY collation used by
    `ORDER BY date_sent DESC` is byte order of UTF-8, which coincides with
    code-point lexicographic order (`bytesLe`), and `ORDER BY` is modelled
    with a sort of the filtered rows by that order.
  * A fallible external event (an exception raised by an INSERT, by the
    networked model call, or by the subprocess call) is an explicit
    constructor of an input datatype mirroring the `try/except` arms of the
    source.
-/

/-! ## Character-list string toolkit (Python semantics) -/

/-- ASCII case folding: the effect of Python `str.lower()` on the characters
relevant to the classifier's token vocabulary. -/
def lowerChar (c : Char) : Char :=
  if 65 ≤ c.toNat && c.toNat ≤ 90 then Char.ofNat (c.toNat + 32) else c

/-- Whitespace recognized by Python `str.strip()` (ASCII part). -/
def isSpaceChar (c : Char) : Bool :=
  c = ' ' || c = '\t' || c = '\n' || c = '\r' || c = '\x0b' || c = '\x0c'

/-- Python `str.strip()`: drop whitespace from both ends. -/
def trimChars (l : List Char) : List Char :=
  ((l.dropWhile isSpaceChar).reverse.dropWhile isSpaceChar).reverse

/-- Python `s.split('\n')`: split on newline, keeping empty pieces, so that
the result is never empty. -/
def splitLines : List Char → List (List Char)
  | [] => [[]]
  | c :: cs =>
    if c = '\n' then [] :: splitLines cs
    else
      match splitLines cs with
      | [] => [[c]]
      | h :: t => (c :: h) :: t

/-- Python `pat in s`: substring containment. -/
def isInfixChars (pat l : List Char) : Bool :=
  l.tails.any (fun t => pat.isPrefixOf t)

/-- Byte order of UTF-8 strings, i.e. SQLite's BINARY collation; equal to
code-point lexicographic order because UTF-8 is order preserving. -/
def bytesLe (a b : List Char) : Bool :=
  match a, b with
  | [], _ => true
  | _ :: _, [] => false
  | c :: cs, d :: ds =>
    if c.toNat < d.toNat then true
    else if d.toNat < c.toNat then false
    else bytesLe cs ds

/-! ## Data model: rows of the two tables of `emails.db`
(`db_manager.py`, `_create_tables`) -/

/-- One row of the `emails` table. `processed INTEGER DEFAULT 0` is a
boolean flag; `category`/`urgency` are nullable TEXT columns. -/
structure EmailRow where
  id : Nat
  message_id : String
  uid : String
  folder : String
  subject : String
  from_addr : String
  to_addr : String
  cc_addr : String
  date_sent : String
  date_received : Nat
  body_plain : Option String
  body_html : Option String
  has_attachments : Bool
  processed : Bool
  category : Option String
  urgency : Option String
  created_at : Nat
  updated_at : Nat
deriving DecidableEq

/-- One row of the `attachments` table. -/
structure AttachmentRow where
  id : Nat
  email_id : Nat
  filename : String
  size : Int
  content_type : String
deriving DecidableEq

/-- The two tables plus the AUTOINCREMENT counters. -/
structure Tables where
  emails : List EmailRow
  attachments : List AttachmentRow
  nextEmailId : Nat
  nextAttachmentId : Nat
deriving DecidableEq

/-- A sqlite3 connection: `live` is the view seen by statements on this
connection (including uncommitted writes), `committed` is the durable
state. `conn.commit()` sets `committed := live`. -/
structure Conn where
  live : Tables
  committed : Tables
deriving DecidableEq

/-- One element of `email_info['attachments']`. `bad` is an element whose
processing raises (for instance a non-dictionary entry, whose `.get`
raises, or an INSERT failing at the storage layer): the exception
propagates out of `add_email` mid-loop. -/
inductive AttIn where
  | ok (filename : Option String) (size : Option Int) (content_type : Option String)
  | bad
deriving DecidableEq

/-- The `email_info` dictionary handed to `EmailDatabase.add_email`; a
missing key is `none` (the source reads keys with `.get(key, default)`).
The dictionary keys `from`/`to`/`cc` are named `from_addr`/`to_addr`/
`cc_addr` here because `from` is a Lean keyword. -/
structure EmailInfo where
  message_id : Option String := none
  uid : Option String := none
  folder : Option String := none
  subject : Option String := none
  from_addr : Option String := none
  to_addr : Option String := none
  cc_addr : Option String := none
  date_str : Option String := none
  body_plain : Option String := none
  body_html : Option String := none
  has_attachments : Bool := false
  attachments : List AttIn := []
deriving DecidableEq

/-! ## Message Store operations (`db_manager.py`) -/

/-- `EmailDatabase.email_exists`: `SELECT 1 FROM emails WHERE message_id = ?`
on the connection's view. -/
def email_exists (conn : Conn) (message_id : String) : Bool :=
  conn.live.emails.any (fun e => decide (e.message_id = message_id))

/-- The attachment-insert loop of `EmailDatabase.add_email`. Returns the
tables after the inserts that did run together with `true` when the loop
completed, `false` when an element raised (later elements are not
reached; the exception propagates with the partial inserts still pending
in the open transaction). -/
def insertAttachments (emailId : Nat) : List AttIn → Tables → Tables × Bool
  | [], t => (t, true)
  | AttIn.bad :: _, t => (t, false)
  | AttIn.ok filename size content_type :: rest, t =>
    let row : AttachmentRow :=
      { id := t.nextAttachmentId
        email_id := emailId
        filename := filename.getD ""
        size := size.getD 0
        content_type := content_type.getD "" }
    insertAttachments emailId rest
      { t with attachments := t.attachments ++ [row]
               nextAttachmentId := t.nextAttachmentId + 1 }

/-- The `emails` row built by the INSERT of `EmailDatabase.add_email`:
explicit columns from the `email_info` dictionary (with the source's
defaults), table defaults for the rest. -/
def newEmailRow (info : EmailInfo) (emailId : Nat) (now : Nat) : EmailRow :=
  { id := emailId
    message_id := info.message_id.getD ""
    uid := info.uid.getD ""
    folder := info.folder.getD "INBOX"
    subject := info.subject.getD ""
    from_addr := info.from_addr.getD ""
    to_addr := info.to_addr.getD ""
    cc_addr := info.cc_addr.getD ""
    date_sent := info.date_str.getD ""
    date_received := now
    body_plain := info.body_plain
    body_html := info.body_html
    has_attachments := info.has_attachments
    processed := false
    category := none
    urgency := none
    created_at := now
    updated_at := now }

/-- `EmailDatabase.add_email`. Returns `.ok (-1)` for a missing/empty or
already-present `message_id` (the duplicate sentinel), `.ok id` after a
completed insert and commit, and `.error ()` when an attachment insert
raised: in that case nothing was committed, but the partial inserts stay
pending on the connection (`live`), exactly as with sqlite3's implicit
transaction that `add_email` only commits on its success path. -/
def add_email (conn : Conn) (info : EmailInfo) (now : Nat) : Except Unit Int × Conn :=
  let message_id := info.message_id.getD ""
  if message_id = "" then (Except.ok (-1), conn)
  else if email_exists conn message_id then (Except.ok (-1), conn)
  else
    let emailId := conn.live.nextEmailId
    let t1 : Tables :=
      { conn.live with
          emails := conn.live.emails ++ [newEmailRow info emailId now]
          nextEmailId := emailId + 1 }
    let r := insertAttachments emailId info.attachments t1
    if r.2 then (Except.ok (Int.ofNat emailId), { live := r.1, committed := r.1 })
    else (Except.error (), { live := r.1, committed := conn.committed })

/-- The row transformation performed by the UPDATE statement of
`EmailDatabase.update_email_classification`. -/
def updateRow (message_id category urgency : String) (now : Nat) (e : EmailRow) : EmailRow :=
  if e.message_id = message_id then
    { e with category := some category
             urgency := some urgency
             processed := true
             updated_at := now }
  else e

/-- `EmailDatabase.update_email_classification`: UPDATE by `message_id`,
commit, and report `cursor.rowcount > 0`. -/
def update_email_classification (conn : Conn) (message_id category urgency : String)
    (now : Nat) : Bool × Conn :=
  let matched := conn.live.emails.any (fun e => decide (e.message_id = message_id))
  let live' : Tables :=
    { conn.live with
        emails := conn.live.emails.map (updateRow message_id category urgency now) }
  (matched, { live := live', committed := live' })

/-- Descending `date_sent` order (SQLite `ORDER BY date_sent DESC`,
BINARY collation): `a` may come before `b` when `b.date_sent` is not
byte-wise above `a.date_sent`. -/
def dateDesc (a b : EmailRow) : Prop :=
  bytesLe b.date_sent.data a.date_sent.data = true

instance : DecidableRel dateDesc := fun a b => by
  unfold dateDesc; infer_instance

/-- `EmailDatabase.get_unprocessed_emails`:
`WHERE processed = 0 ORDER BY date_sent DESC LIMIT ?`. -/
def get_unprocessed_emails (conn : Conn) (limit : Nat) : List EmailRow :=
  (List.insertionSort dateDesc (conn.live.emails.filter (fun e => !e.processed))).take limit

/-- `EmailDatabase.get_urgent_unprocessed_emails` (despite its name it
selects processed rows):
`WHERE processed = 1 AND urgency = 'urgent' ORDER BY date_sent DESC`. -/
def get_urgent_unprocessed_emails (conn : Conn) : List EmailRow :=
  List.insertionSort dateDesc
    (conn.live.emails.filter
      (fun e => e.processed && decide (e.urgency = some "urgent")))

/-- `EmailDatabase.mark_summary_sent`: refresh `updated_at` of the listed
row ids and commit; an empty id list returns without touching the
connection. -/
def mark_summary_sent (conn : Conn) (email_ids : List Nat) (now : Nat) : Conn :=
  if email_ids = [] then conn
  else
    let live' : Tables :=
      { conn.live with
          emails := conn.live.emails.map
            (fun e => if e.id ∈ email_ids then { e with updated_at := now } else e) }
    { live := live', committed := live' }

/-- The mutating store operations, for stating store-wide invariants. -/
inductive StoreOp where
  | addOp (info : EmailInfo) (now : Nat)
  | updateOp (message_id category urgency : String) (now : Nat)
  | markSummaryOp (email_ids : List Nat) (now : Nat)

/-- Apply a mutating store operation to a connection. -/
def applyOp (op : StoreOp) (conn : Conn) : Conn :=
  match op with
  | StoreOp.addOp info now => (add_email conn info now).2
  | StoreOp.updateOp m c u now => (update_email_classification conn m c u now).2
  | StoreOp.markSummaryOp ids now => mark_summary_sent conn ids now

/-- Well-formedness of a table snapshot: every row id is below the
AUTOINCREMENT counter and row ids are pairwise distinct. Every state
reachable from an empty database satisfies this. -/
def WFTables (t : Tables) : Prop :=
  (∀ e ∈ t.emails, e.id < t.nextEmailId) ∧
    t.emails.Pairwise (fun a b => a.id ≠ b.id)

instance : DecidablePred WFTables := fun t => by
  unfold WFTables; infer_instance

/-! ## Classifier Gateway (`classify.py`, class `OllamaClassifier`) -/

/-- Outcome of the primary networked call in `OllamaClassifier._call_ollama`
(the body of its `try`): `ok` carries the decoded `response` field of the
JSON reply, `urlError` is the `urllib.error.URLError` arm, `otherExc` is
the generic `except Exception` arm (for instance a 200 reply whose body is
not valid JSON, which makes `json.loads` raise). -/
inductive PrimaryResult where
  | ok (response : String)
  | urlError
  | otherExc
deriving DecidableEq

/-- Outcome of the `subprocess.run(['ollama', 'run', ...])` call in
`OllamaClassifier._call_ollama_cli`. -/
inductive CliResult where
  | ok (stdout : String)
  | fileNotFound
  | timeoutExpired
  | otherExc
deriving DecidableEq

/-- `OllamaClassifier._call_ollama_cli`: one subprocess invocation; every
`except` arm resolves to the empty string. The second component counts
local-process (command-line) invocations performed: always exactly one. -/
def call_ollama_cli (_prompt : String) (cli : CliResult) : String × Nat :=
  match cli with
  | CliResult.ok stdout => (String.mk (trimChars stdout.data), 1)
  | CliResult.fileNotFound => ("", 1)
  | CliResult.timeoutExpired => ("", 1)
  | CliResult.otherExc => ("", 1)

/-- `OllamaClassifier._call_ollama`: primary networked call, falling back to
the command-line path on either `except` arm. The second component counts
local-process invocations. -/
def call_ollama (prompt : String) (primary : PrimaryResult) (cli : CliResult) : String × Nat :=
  match primary with
  | PrimaryResult.ok response => (String.mk (trimChars response.data), 0)
  | PrimaryResult.urlError => call_ollama_cli prompt cli
  | PrimaryResult.otherExc => call_ollama_cli prompt cli

/-- The fixed prompt template built by `OllamaClassifier.classify_email`. -/
def buildPrompt (subject body_preview : String) : String :=
  "请分析以下邮件，判断其类型和紧急程度。\n\n邮件标题: " ++ subject ++
  "\n邮件正文: " ++ body_preview ++
  "\n\n请严格按照以下格式回答，不要包含其他内容：\n类型:task 或 notification\n紧急:urgent 或 normal\n\n" ++
  "判断标准：\n- task: 需要执行的任务、工作安排、会议邀请、待办事项等\n" ++
  "- notification: 通知、公告、周报、日报、信息告知等\n" ++
  "- urgent: 包含\"紧急\"、\"重要\"、\"ASAP\"、\"尽快\"等关键词，或来自上级的直接指令\n" ++
  "- normal: 常规邮件，无明显紧急标记\n\n回答格式：\n类型: [task/notification]\n紧急: [urgent/normal]\n"

/-- Category assignment attempted by one (already stripped and lowered)
response line: `some label` exactly when the line carries a category
marker and a recognized category token, `none` when the line leaves the
accumulator untouched. -/
def lineCategory (line : List Char) : Option String :=
  if isInfixChars "类型:".data line || isInfixChars "type:".data line
      || isInfixChars "category:".data line then
    if isInfixChars "task".data line then some "task"
    else if isInfixChars "notification".data line then some "notification"
    else none
  else none

/-- Urgency assignment attempted by one (already stripped and lowered)
response line. -/
def lineUrgency (line : List Char) : Option String :=
  if isInfixChars "紧急:".data line || isInfixChars "urgency:".data line
      || isInfixChars "priority:".data line then
    if isInfixChars "urgent".data line || isInfixChars "紧急".data line then some "urgent"
    else if isInfixChars "normal".data line || isInfixChars "普通".data line then some "normal"
    else none
  else none

/-- `line.strip().lower()` applied to a raw response line. -/
def normalizeLine (l : List Char) : List Char :=
  (trimChars l).map lowerChar

/-- One iteration of the response-parsing loop of
`OllamaClassifier.classify_email`: a recognized assignment overwrites the
accumulator, an unrecognized line keeps it. -/
def parseStep (acc : Option String × Option String) (rawLine : List Char) :
    Option String × Option String :=
  let line := normalizeLine rawLine
  ((lineCategory line).or acc.1, (lineUrgency line).or acc.2)

/-- The whole response-parsing loop: split on newline, scan the lines with
`parseStep` starting from `(None, None)`. -/
def parseLabels (response : String) : Option String × Option String :=
  (splitLines response.data).foldl parseStep (none, none)

/-- `OllamaClassifier.classify_email`: truncate the body to 1000
characters, build the prompt, call the backend, parse the response and
default each unassigned axis. The second component counts local-process
fallback invocations performed by the underlying call. -/
def classify_email (subject body : String) (primary : PrimaryResult) (cli : CliResult) :
    (String × String) × Nat :=
  let body_preview := String.mk (body.data.take 1000)
  let prompt := buildPrompt subject body_preview
  let (response, cliCalls) := call_ollama prompt primary cli
  let (category, urgency) := parseLabels response
  ((category.getD "notification", urgency.getD "normal"), cliCalls)

/-! ### Spec-side parsing policies, for comparison with the code

The specification describes the parse as "first match per axis wins";
these definitions follow the spec's words and are compared against
`parseLabels` (which the code implements by overwriting). -/

/-- Modelled from the spec: "first match per axis wins" — the first line
whose scan recognizes an assignment determines the axis. -/
def firstMatchPolicy (f : List Char → Option String) : List (List Char) → Option String
  | [] => none
  | l :: ls => (f l).or (firstMatchPolicy f ls)

/-- The policy the code actually implements: the last line whose scan
recognizes an assignment determines the axis (later lines overwrite
earlier ones). -/
def lastMatchPolicy (f : List Char → Option String) : List (List Char) → Option String
  | [] => none
  | l :: ls => (lastMatchPolicy f ls).or (f l)

/-! ## Classification Pipeline (`classify.py`, function `classify_emails`) -/

/-- The shape of the result dictionary of `classify_emails`. -/
inductive BatchOutcome where
  | dbFailed
  | empty
  | ollamaUnreachable
  | finished (total processed failed : Nat)
deriving DecidableEq

/-- The per-record loop of `classify_emails`: a classifier exception counts
the record as failed and moves on; otherwise the classification is
persisted, counting the record as processed when the update matched a row
and as failed when it did not. -/
def classifyLoop (classifier : EmailRow → Except Unit (String × String)) (now : Nat) :
    List EmailRow → Conn → Nat → Nat → Nat × Nat × Conn
  | [], conn, processed, failed => (processed, failed, conn)
  | e :: rest, conn, processed, failed =>
    match classifier e with
    | Except.error _ => classifyLoop classifier now rest conn processed (failed + 1)
    | Except.ok (category, urgency) =>
      let r := update_email_classification conn e.message_id category urgency now
      if r.1 then classifyLoop classifier now rest r.2 (processed + 1) failed
      else classifyLoop classifier now rest r.2 processed (failed + 1)

/-- `classify_emails`: connect to the store, fetch up to `limit`
unprocessed records, return early when there are none, verify backend
connectivity once, then run the per-record loop. `dbOk` is the outcome of
`db.connect()`, `ollamaOk` the outcome of `classifier.test_connection()`,
and `classifier` the outcome of `classifier.classify_email` on each
record (`.error` meaning the call raised). -/
def classify_emails (dbOk : Bool) (conn : Conn) (limit : Nat)
    (classifier : EmailRow → Except Unit (String × String)) (ollamaOk : Bool)
    (now : Nat) : BatchOutcome × Conn :=
  if !dbOk then (BatchOutcome.dbFailed, conn)
  else
    let unprocessed := get_unprocessed_emails conn limit
    if unprocessed.isEmpty then (BatchOutcome.empty, conn)
    else if !ollamaOk then (BatchOutcome.ollamaUnreachable, conn)
    else
      let r := classifyLoop classifier now unprocessed conn 0 0
      (BatchOutcome.finished unprocessed.length r.1 r.2.1, r.2.2)

/-! ## Lemmas about the response parser -/

/-- The parsing loop computes, on each axis, the last recognized
assignment, falling back to the accumulator. -/
lemma foldl_parseStep (ls : List (List Char)) (a b : Option String) :
    ls.foldl parseStep (a, b) =
      ((lastMatchPolicy (fun l => lineCategory (normalizeLine l)) ls).or a,
       (lastMatchPolicy (fun l => lineUrgency (normalizeLine l)) ls).or b) := by
  induction ls generalizing a b with
  | nil => simp [lastMatchPolicy]
  | cons l ls ih =>
    simp only [List.foldl_cons, parseStep, lastMatchPolicy]
    rw [ih]
    simp [Option.or_assoc]

/-- A recognized category assignment is one of the two category labels. -/
lemma lineCategory_vals (line : List Char) (v : String)
    (h : lineCategory line = some v) : v = "task" ∨ v = "notification" := by
  unfold lineCategory at h
  repeat' split at h
  all_goals simp_all

/-- A recognized urgency assignment is one of the two urgency labels. -/
lemma lineUrgency_vals (line : List Char) (v : String)
    (h : lineUrgency line = some v) : v = "urgent" ∨ v = "normal" := by
  unfold lineUrgency at h
  repeat' split at h
  all_goals simp_all

/-- Values produced by `lastMatchPolicy` come from its line scanner. -/
lemma lastMatchPolicy_vals (f : List Char → Option String) (P : String → Prop)
    (hf : ∀ l v, f l = some v → P v) :
    ∀ (ls : List (List Char)) (v : String), lastMatchPolicy f ls = some v → P v := by
  intro ls
  induction ls with
  | nil => intro v h; simp [lastMatchPolicy] at h
  | cons l ls ih =>
    intro v h
    simp only [lastMatchPolicy] at h
    cases hrec : lastMatchPolicy f ls with
    | some w => rw [hrec] at h; simp [Option.or] at h; exact ih v (by rw [hrec, h])
    | none => rw [hrec] at h; simp [Option.or] at h; exact hf l v h

/-- When no line carries a recognized assignment, `lastMatchPolicy`
assigns nothing. -/
lemma lastMatchPolicy_eq_none (f : List Char → Option String)
    (ls : List (List Char)) (h : ∀ l ∈ ls, f l = none) :
    lastMatchPolicy f ls = none := by
  induction ls with
  | nil => rfl
  | cons l ls ih =>
    simp only [lastMatchPolicy]
    rw [ih (fun x hx => h x (List.mem_cons_of_mem _ hx)), h l (List.mem_cons_self _ _)]
    rfl

/-- `parseLabels` computed in closed form: last recognized line wins on
each axis. -/
lemma parseLabels_eq (response : String) :
    parseLabels response =
      (lastMatchPolicy (fun l => lineCategory (normalizeLine l)) (splitLines response.data),
       lastMatchPolicy (fun l => lineUrgency (normalizeLine l)) (splitLines response.data)) := by
  unfold parseLabels
  rw [foldl_parseStep, Option.or_none, Option.or_none]

/-! ## Claim C4: the classifier is a total function with defaults -/

/-- C4: for every subject, body and backend outcome, `classify_email`
returns a pair with the category in `{task, notification}` and the
urgency in `{urgent, normal}`; on an axis for which no response line
carries a recognized assignment, the result is the default of that axis
(`notification` for category, `normal` for urgency). In particular a
response with no recognizable label tokens yields exactly
`(notification, normal)`; being a Lean function, the model returns on
every input (the source's `try/except` arms are all modelled as
returning strings, so no exception escapes). -/
theorem c4_classify_total (subject body : String) (primary : PrimaryResult)
    (cli : CliResult) :
    (((classify_email subject body primary cli).1.1 = "task" ∨
        (classify_email subject body primary cli).1.1 = "notification") ∧
      ((classify_email subject body primary cli).1.2 = "urgent" ∨
        (classify_email subject body primary cli).1.2 = "normal")) ∧
    ((∀ l ∈ splitLines (call_ollama
          (buildPrompt subject (String.mk (body.data.take 1000))) primary cli).1.data,
        lineCategory (normalizeLine l) = none) →
      (classify_email subject body primary cli).1.1 = "notification") ∧
    ((∀ l ∈ splitLines (call_ollama
          (buildPrompt subject (String.mk (body.data.take 1000))) primary cli).1.data,
        lineUrgency (normalizeLine l) = none) →
      (classify_email subject body primary cli).1.2 = "normal") := by
  have hcl : classify_email subject body primary cli =
      (((parseLabels (call_ollama
            (buildPrompt subject (String.mk (body.data.take 1000))) primary cli).1).1.getD
          "notification",
        (parseLabels (call_ollama
            (buildPrompt subject (String.mk (body.data.take 1000))) primary cli).1).2.getD
          "normal"),
       (call_ollama (buildPrompt subject (String.mk (body.data.take 1000))) primary cli).2) := by
    rfl
  rw [hcl, parseLabels_eq]
  refine ⟨⟨?_, ?_⟩, ?_, ?_⟩
  · cases h : lastMatchPolicy (fun l => lineCategory (normalizeLine l))
      (splitLines (call_ollama
        (buildPrompt subject (String.mk (body.data.take 1000))) primary cli).1.data) with
    | none => right; simp [h]
    | some v =>
      have := lastMatchPolicy_vals (fun l => lineCategory (normalizeLine l))
        (fun v => v = "task" ∨ v = "notification")
        (fun l v hv => lineCategory_vals (normalizeLine l) v hv) _ v h
      simpa [h] using this
  · cases h : lastMatchPolicy (fun l => lineUrgency (normalizeLine l))
      (splitLines (call_ollama
        (buildPrompt subject (String.mk (body.data.take 1000))) primary cli).1.data) with
    | none => right; simp [h]
    | some v =>
      have := lastMatchPolicy_vals (fun l => lineUrgency (normalizeLine l))
        (fun v => v = "urgent" ∨ v = "normal")
        (fun l v hv => lineUrgency_vals (normalizeLine l) v hv) _ v h
      simpa [h] using this
  · intro hnone
    rw [lastMatchPolicy_eq_none _ _ hnone]
    rfl
  · intro hnone
    rw [lastMatchPolicy_eq_none _ _ hnone]
    rfl

/-- Witness for C4 at a concrete input: the response `"hello"` has no
recognizable label token, and the classifier returns exactly
`(notification, normal)`. -/
theorem c4_classify_total_witness :
    (∀ l ∈ splitLines (call_ollama
        (buildPrompt "s" (String.mk ("b".data.take 1000))) (PrimaryResult.ok "hello")
        (CliResult.ok "")).1.data,
      lineCategory (normalizeLine l) = none) ∧
    (∀ l ∈ splitLines (call_ollama
        (buildPrompt "s" (String.mk ("b".data.take 1000))) (PrimaryResult.ok "hello")
        (CliResult.ok "")).1.data,
      lineUrgency (normalizeLine l) = none) ∧
    (classify_email "s" "b" (PrimaryResult.ok "hello") (CliResult.ok "")).1.1 =
      "notification" ∧
    (classify_email "s" "b" (PrimaryResult.ok "hello") (CliResult.ok "")).1.2 =
      "normal" := by
  have h := c4_classify_total "s" "b" (PrimaryResult.ok "hello") (CliResult.ok "")
  exact ⟨by decide, by decide, h.2.1 (by decide), h.2.2 (by decide)⟩

/-! ## Claim C5: which line determines each axis -/

/-- C5 counterexample: the claim says the FIRST line with a recognized
category marker determines the category. On the two-line response
`"type: task\ntype: notification"` the first matching line yields `task`,
but the code returns `notification`: the parsing loop overwrites earlier
assignments, so the last matching line wins. -/
theorem c5_first_match_counterexample :
    (classify_email "s" "b" (PrimaryResult.ok "type: task\ntype: notification")
        (CliResult.ok "")).1.1 = "notification" ∧
    firstMatchPolicy (fun l => lineCategory (normalizeLine l))
        (splitLines ("type: task\ntype: notification" : String).data) = some "task" ∧
    ("notification" : String) ≠ "task" := by
  refine ⟨by decide, by decide, by decide⟩

/-- C5 as amended: for every response, the category assigned by the parse
is determined by the LAST line (scanning top to bottom, after stripping
and lowering) carrying a recognized category marker together with a
recognized category token, and likewise for urgency; earlier matching
lines do not change the result for that axis, and an axis with no
matching line gets its default at the classifier level. -/
theorem c5_last_match_wins (response subject body : String) (cli : CliResult) :
    parseLabels response =
      (lastMatchPolicy (fun l => lineCategory (normalizeLine l))
          (splitLines response.data),
       lastMatchPolicy (fun l => lineUrgency (normalizeLine l))
          (splitLines response.data)) ∧
    (classify_email subject body (PrimaryResult.ok response) cli).1 =
      ((lastMatchPolicy (fun l => lineCategory (normalizeLine l))
          (splitLines (trimChars response.data))).getD "notification",
       (lastMatchPolicy (fun l => lineUrgency (normalizeLine l))
          (splitLines (trimChars response.data))).getD "normal") := by
  refine ⟨parseLabels_eq response, ?_⟩
  have hcl : (classify_email subject body (PrimaryResult.ok response) cli).1 =
      ((parseLabels (String.mk (trimChars response.data))).1.getD "notification",
       (parseLabels (String.mk (trimChars response.data))).2.getD "normal") := rfl
  rw [hcl, parseLabels_eq]

/-! ## Claim C6: fallback invocation discipline -/

/-- C6 counterexample: the claim says the local-process fallback runs ONLY
when the primary call fails with a network error. But the generic
`except Exception` arm of `_call_ollama` (reached, for instance, when the
HTTP call succeeds and `json.loads` raises on a malformed body) also
invokes the fallback — here a primary outcome that is not the network
error causes one fallback invocation. -/
theorem c6_fallback_counterexample :
    (classify_email "s" "b" PrimaryResult.otherExc (CliResult.ok "ok")).2 = 1 ∧
    PrimaryResult.otherExc ≠ PrimaryResult.urlError := by
  refine ⟨by decide, by decide⟩

/-- C6 as amended: the local-process fallback is invoked exactly once when
the primary networked call raises — whether a network error or any other
exception of the call — and never when the primary call returns a
response, however unparseable its labels are (label-parse failure
triggers no fallback). -/
theorem c6_fallback_exactly_once (subject body : String) (cli : CliResult) :
    (classify_email subject body PrimaryResult.urlError cli).2 = 1 ∧
    (classify_email subject body PrimaryResult.otherExc cli).2 = 1 ∧
    ∀ response : String,
      (classify_email subject body (PrimaryResult.ok response) cli).2 = 0 := by
  refine ⟨?_, ?_, fun response => rfl⟩ <;> cases cli <;> rfl

/-! ## Lemmas about the store operations -/

/-- The UPDATE row transformation never changes `message_id`. -/
lemma updateRow_message_id (m c u : String) (now : Nat) (e : EmailRow) :
    (updateRow m c u now e).message_id = e.message_id := by
  unfold updateRow; split <;> rfl

/-- The UPDATE row transformation never changes `id`. -/
lemma updateRow_id (m c u : String) (now : Nat) (e : EmailRow) :
    (updateRow m c u now e).id = e.id := by
  unfold updateRow; split <;> rfl

/-- The UPDATE row transformation never turns `processed` off. -/
lemma updateRow_processed_mono (m c u : String) (now : Nat) (e : EmailRow)
    (h : e.processed = true) : (updateRow m c u now e).processed = true := by
  unfold updateRow; split <;> simp [h]

/-- The UPDATE row transformation on a matching row sets the
classification fields. -/
lemma updateRow_matched (m c u : String) (now : Nat) (e : EmailRow)
    (h : e.message_id = m) :
    (updateRow m c u now e).category = some c ∧
    (updateRow m c u now e).urgency = some u ∧
    (updateRow m c u now e).processed = true ∧
    (updateRow m c u now e).updated_at = now := by
  unfold updateRow
  rw [if_pos h]
  exact ⟨rfl, rfl, rfl, rfl⟩

/-- The UPDATE row transformation on a non-matching row is the identity. -/
lemma updateRow_unmatched (m c u : String) (now : Nat) (e : EmailRow)
    (h : e.message_id ≠ m) : updateRow m c u now e = e := by
  unfold updateRow
  rw [if_neg h]

/-- `update_email_classification` reports a match exactly when a row with
the given `message_id` is present. -/
lemma update_matched_iff (conn : Conn) (m c u : String) (now : Nat) :
    (update_email_classification conn m c u now).1 = true ↔
      ∃ e ∈ conn.live.emails, e.message_id = m := by
  simp [update_email_classification, List.any_eq_true]

/-- The rows seen after `update_email_classification`. -/
lemma update_live_emails (conn : Conn) (m c u : String) (now : Nat) :
    (update_email_classification conn m c u now).2.live.emails =
      conn.live.emails.map (updateRow m c u now) := rfl

/-- An existing `message_id` still exists after an UPDATE. -/
lemma update_preserves_mid (conn : Conn) (m c u : String) (now : Nat)
    (mid : String) (h : ∃ e ∈ conn.live.emails, e.message_id = mid) :
    ∃ e ∈ (update_email_classification conn m c u now).2.live.emails,
      e.message_id = mid := by
  obtain ⟨e, he, hmid⟩ := h
  refine ⟨updateRow m c u now e, ?_, ?_⟩
  · rw [update_live_emails]; exact List.mem_map_of_mem _ he
  · rw [updateRow_message_id]; exact hmid

/-- A processed row with a given `message_id` survives an UPDATE as a
processed row with that `message_id`. -/
lemma update_preserves_processed (conn : Conn) (m c u : String) (now : Nat)
    (mid : String)
    (h : ∃ e ∈ conn.live.emails, e.message_id = mid ∧ e.processed = true) :
    ∃ e ∈ (update_email_classification conn m c u now).2.live.emails,
      e.message_id = mid ∧ e.processed = true := by
  obtain ⟨e, he, hmid, hproc⟩ := h
  refine ⟨updateRow m c u now e, ?_, ?_, ?_⟩
  · rw [update_live_emails]; exact List.mem_map_of_mem _ he
  · rw [updateRow_message_id]; exact hmid
  · exact updateRow_processed_mono _ _ _ _ _ hproc

/-- After an UPDATE whose `message_id` has a matching row, a processed row
with that `message_id` is present. -/
lemma update_marks_processed (conn : Conn) (m c u : String) (now : Nat)
    (h : ∃ e ∈ conn.live.emails, e.message_id = m) :
    ∃ e ∈ (update_email_classification conn m c u now).2.live.emails,
      e.message_id = m ∧ e.processed = true := by
  obtain ⟨e, he, hmid⟩ := h
  refine ⟨updateRow m c u now e, ?_, ?_, ?_⟩
  · rw [update_live_emails]; exact List.mem_map_of_mem _ he
  · rw [updateRow_message_id]; exact hmid
  · unfold updateRow; rw [if_pos hmid]

/-! ## Claim C8: postcondition of `update_email_classification` -/

/-- C8: for every connection state, `message_id`, `category` and `urgency`,
the call reports a match exactly when a row with that `message_id`
exists; every matching row ends with the given `category` and `urgency`,
`processed = true` and a refreshed `updated_at`; non-matching rows are
untouched; and on an unknown `message_id` it reports `false` and changes
no row (and raises nothing — the model is a total function). -/
theorem c8_update_postcondition (conn : Conn) (message_id category urgency : String)
    (now : Nat) :
    ((update_email_classification conn message_id category urgency now).1 = true ↔
      ∃ e ∈ conn.live.emails, e.message_id = message_id) ∧
    (∀ e' ∈ (update_email_classification conn message_id category urgency now).2.live.emails,
      e'.message_id = message_id →
        e'.category = some category ∧ e'.urgency = some urgency ∧
        e'.processed = true ∧ e'.updated_at = now) ∧
    (∀ e ∈ conn.live.emails, e.message_id ≠ message_id →
      e ∈ (update_email_classification conn message_id category urgency now).2.live.emails) ∧
    ((update_email_classification conn message_id category urgency now).1 = false →
      (update_email_classification conn message_id category urgency now).2.live =
        conn.live) := by
  refine ⟨update_matched_iff conn message_id category urgency now, ?_, ?_, ?_⟩
  · intro e' he' hmid
    rw [update_live_emails] at he'
    obtain ⟨e, he, rfl⟩ := List.mem_map.mp he'
    rw [updateRow_message_id] at hmid
    exact updateRow_matched _ _ _ _ _ hmid
  · intro e he hne
    rw [update_live_emails]
    have : updateRow message_id category urgency now e = e :=
      updateRow_unmatched _ _ _ _ _ hne
    exact this ▸ List.mem_map_of_mem _ he
  · intro hfalse
    have hnone : ∀ e ∈ conn.live.emails, e.message_id ≠ message_id := by
      intro e he
      by_contra heq
      have := (update_matched_iff conn message_id category urgency now).mpr ⟨e, he, heq⟩
      rw [hfalse] at this
      exact Bool.false_ne_true this
    have hmap : conn.live.emails.map (updateRow message_id category urgency now) =
        conn.live.emails := by
      have := List.map_congr_left
        (fun e he => updateRow_unmatched message_id category urgency now e (hnone e he))
      simpa using this
    show ({ conn.live with
        emails := conn.live.emails.map (updateRow message_id category urgency now) } :
        Tables) = conn.live
    rw [hmap]

/-! ### Concrete demonstration states for the witnesses -/

/-- A small demonstration row. -/
def demoRow (id : Nat) (message_id date_sent : String) (processed : Bool)
    (category urgency : Option String) : EmailRow :=
  { id := id, message_id := message_id, uid := "", folder := "INBOX",
    subject := "subj", from_addr := "a@x", to_addr := "b@x", cc_addr := "",
    date_sent := date_sent, date_received := 0, body_plain := some "body",
    body_html := none, has_attachments := false, processed := processed,
    category := category, urgency := urgency, created_at := 0, updated_at := 0 }

/-- A demonstration connection with one processed and one unprocessed row. -/
def demoConn : Conn :=
  let t : Tables :=
    { emails := [demoRow 1 "m1" "2025-01-02" false none none,
                 demoRow 2 "m2" "2025-01-01" true (some "task") (some "urgent")],
      attachments := [], nextEmailId := 3, nextAttachmentId := 1 }
  { live := t, committed := t }

/-- Witness for C8 at a concrete connection: the known `message_id` `m1`
matches, the unknown `message_id` `zz` reports `false` and leaves the
table untouched. -/
theorem c8_update_postcondition_witness :
    (update_email_classification demoConn "m1" "task" "urgent" 7).1 = true ∧
    (∃ e ∈ (update_email_classification demoConn "m1" "task" "urgent" 7).2.live.emails,
      e.message_id = "m1" ∧ e.category = some "task" ∧ e.urgency = some "urgent" ∧
      e.processed = true ∧ e.updated_at = 7) ∧
    (update_email_classification demoConn "zz" "task" "urgent" 7).1 = false ∧
    (update_email_classification demoConn "zz" "task" "urgent" 7).2.live =
      demoConn.live := by
  have h1 := c8_update_postcondition demoConn "m1" "task" "urgent" 7
  have h2 := c8_update_postcondition demoConn "zz" "task" "urgent" 7
  refine ⟨h1.1.mpr (by decide), ?_, ?_, ?_⟩
  · obtain ⟨e, he, hmid⟩ :=
      update_preserves_mid demoConn "m1" "task" "urgent" 7 "m1" (by decide)
    obtain ⟨hc, hu, hp, ht⟩ := h1.2.1 e he hmid
    exact ⟨e, he, hmid, hc, hu, hp, ht⟩
  · by_contra hne
    have := h2.1.mp (by revert hne; cases (update_email_classification demoConn "zz" "task" "urgent" 7).1 <;> simp)
    revert this
    decide
  · exact h2.2.2.2 (by
      by_contra hne
      have := h2.1.mp (by revert hne; cases (update_email_classification demoConn "zz" "task" "urgent" 7).1 <;> simp)
      revert this
      decide)

/-- The attachment-insert loop never touches the `emails` table. -/
lemma insertAttachments_emails (emailId : Nat) (atts : List AttIn) (t : Tables) :
    (insertAttachments emailId atts t).1.emails = t.emails := by
  induction atts generalizing t with
  | nil => rfl
  | cons a rest ih =>
    cases a with
    | bad => rfl
    | ok filename size content_type => exact ih _

/-- `add_email` on a duplicate (present `message_id`) returns the sentinel
and leaves the connection untouched. -/
lemma add_email_duplicate (conn : Conn) (info : EmailInfo) (now : Nat)
    (h0 : info.message_id.getD "" ≠ "")
    (hex : email_exists conn (info.message_id.getD "") = true) :
    add_email conn info now = (Except.ok (-1), conn) := by
  unfold add_email
  rw [if_neg h0, hex]
  rfl

/-- `add_email` on a missing or empty `message_id` returns the sentinel
and leaves the connection untouched. -/
lemma add_email_empty (conn : Conn) (info : EmailInfo) (now : Nat)
    (h0 : info.message_id.getD "" = "") :
    add_email conn info now = (Except.ok (-1), conn) := by
  unfold add_email
  rw [if_pos h0]

/-- On the insert path, the rows seen afterwards are the old rows plus the
new one — whether or not the attachment loop completed. -/
lemma add_email_insert_emails (conn : Conn) (info : EmailInfo) (now : Nat)
    (h0 : info.message_id.getD "" ≠ "")
    (hex : email_exists conn (info.message_id.getD "") = false) :
    (add_email conn info now).2.live.emails =
      conn.live.emails ++ [newEmailRow info conn.live.nextEmailId now] := by
  unfold add_email
  rw [if_neg h0, hex]
  simp only [Bool.false_eq_true, if_false]
  split <;> rw [insertAttachments_emails]

/-- Any row seen after `add_email` is an old row or the freshly inserted
row (which is unprocessed and carries the next AUTOINCREMENT id). -/
lemma add_email_emails_cases (conn : Conn) (info : EmailInfo) (now : Nat) :
    ∀ e' ∈ (add_email conn info now).2.live.emails,
      e' ∈ conn.live.emails ∨ e' = newEmailRow info conn.live.nextEmailId now := by
  intro e' he'
  by_cases h0 : info.message_id.getD "" = ""
  · rw [add_email_empty conn info now h0] at he'
    exact Or.inl he'
  · cases hex : email_exists conn (info.message_id.getD "") with
    | true =>
      rw [add_email_duplicate conn info now h0 hex] at he'
      exact Or.inl he'
    | false =>
      rw [add_email_insert_emails conn info now h0 hex] at he'
      rcases List.mem_append.mp he' with h | h
      · exact Or.inl h
      · exact Or.inr (List.mem_singleton.mp h)

/-! ## Claim C1: dedup idempotence of `add_email` -/

/-- C1: when exactly one stored record carries `message_id` and a second
`add_email` call is made with a record carrying the same `message_id`,
the call returns the duplicate sentinel `-1`, leaves the connection
completely unchanged (hence no field of the first record is altered) and
exactly one stored record with that `message_id` remains. -/
theorem c1_dedup_idempotent (conn : Conn) (info : EmailInfo) (now : Nat)
    (message_id : String)
    (hstored : (conn.live.emails.filter
      (fun e => decide (e.message_id = message_id))).length = 1)
    (hsame : info.message_id.getD "" = message_id) :
    (add_email conn info now).1 = Except.ok (-1) ∧
    (add_email conn info now).2 = conn ∧
    ((add_email conn info now).2.live.emails.filter
      (fun e => decide (e.message_id = message_id))).length = 1 := by
  by_cases h0 : message_id = ""
  · have h := add_email_empty conn info now (by rw [hsame, h0])
    rw [h]
    exact ⟨rfl, rfl, hstored⟩
  · have hex : email_exists conn message_id = true := by
      have hpos : 0 < (conn.live.emails.filter
          (fun e => decide (e.message_id = message_id))).length := by omega
      obtain ⟨x, hx⟩ := List.exists_mem_of_length_pos hpos
      have hx' := List.mem_filter.mp hx
      exact List.any_eq_true.mpr ⟨x, hx'.1, hx'.2⟩
    have h := add_email_duplicate conn info now (by rw [hsame]; exact h0)
      (by rw [hsame]; exact hex)
    rw [h]
    exact ⟨rfl, rfl, hstored⟩

/-- Witness for C1: re-adding the stored `message_id` `m1` of the
demonstration connection returns `-1` and changes nothing. -/
theorem c1_dedup_idempotent_witness :
    ((demoConn.live.emails.filter (fun e => decide (e.message_id = "m1"))).length = 1) ∧
    (add_email demoConn { message_id := some "m1", subject := some "dup" } 9).1 =
      Except.ok (-1) ∧
    (add_email demoConn { message_id := some "m1", subject := some "dup" } 9).2 =
      demoConn ∧
    ((add_email demoConn { message_id := some "m1", subject := some "dup" } 9).2.live.emails.filter
      (fun e => decide (e.message_id = "m1"))).length = 1 := by
  have h := c1_dedup_idempotent demoConn
    { message_id := some "m1", subject := some "dup" } 9 "m1" (by decide) (by decide)
  exact ⟨by decide, h.1, h.2.1, h.2.2⟩

/-! ## Claim C10: records without a `message_id` are never stored -/

/-- C10: an `add_email` call whose record has a missing or empty
`message_id` returns the duplicate sentinel `-1` and stores nothing; and
`add_email` preserves the invariant that every stored row has a
non-empty `message_id`. -/
theorem c10_no_empty_message_id (conn : Conn) (info : EmailInfo) (now : Nat) :
    (info.message_id.getD "" = "" →
      add_email conn info now = (Except.ok (-1), conn)) ∧
    ((∀ e ∈ conn.live.emails, e.message_id ≠ "") →
      ∀ e' ∈ (add_email conn info now).2.live.emails, e'.message_id ≠ "") := by
  constructor
  · exact add_email_empty conn info now
  · intro hinv e' he'
    rcases add_email_emails_cases conn info now e' he' with h | h
    · exact hinv e' h
    · rw [h]
      show info.message_id.getD "" ≠ ""
      intro h0
      rw [add_email_empty conn info now h0] at he'
      exact hinv e' he' (h ▸ h0)

/-- Witness for C10: adding a record with no `message_id` to the
demonstration connection returns `-1` and stores nothing, and all stored
rows keep a non-empty `message_id`. -/
theorem c10_no_empty_message_id_witness :
    (({ subject := some "no id" } : EmailInfo).message_id.getD "" = "") ∧
    add_email demoConn { subject := some "no id" } 9 = (Except.ok (-1), demoConn) ∧
    (∀ e' ∈ (add_email demoConn { subject := some "no id" } 9).2.live.emails,
      e'.message_id ≠ "") := by
  have h := c10_no_empty_message_id demoConn { subject := some "no id" } 9
  exact ⟨by decide, h.1 (by decide), h.2 (by decide)⟩

/-! ## Claim C3: `processed` is monotonic -/

/-- In a list of rows with pairwise distinct ids, a row is determined by
its id. -/
lemma mem_unique_id {l : List EmailRow}
    (hpw : l.Pairwise (fun a b => a.id ≠ b.id)) :
    ∀ a ∈ l, ∀ b ∈ l, a.id = b.id → a = b := by
  induction l with
  | nil => intro a ha; exact absurd ha (List.not_mem_nil a)
  | cons x xs ih =>
    have hx := List.pairwise_cons.mp hpw
    intro a ha b hb hid
    rcases List.mem_cons.mp ha with rfl | ha' <;>
      rcases List.mem_cons.mp hb with rfl | hb'
    · rfl
    · exact absurd hid (hx.1 b hb')
    · exact absurd hid.symm (hx.1 a ha')
    · exact ih hx.2 a ha' b hb' hid

/-- The rows seen after `mark_summary_sent`. -/
lemma mark_summary_sent_emails (conn : Conn) (ids : List Nat) (now : Nat) :
    (mark_summary_sent conn ids now).live.emails = conn.live.emails ∨
    (mark_summary_sent conn ids now).live.emails =
      conn.live.emails.map
        (fun e => if e.id ∈ ids then { e with updated_at := now } else e) := by
  unfold mark_summary_sent
  split
  · exact Or.inl rfl
  · exact Or.inr rfl

/-- C3: on a well-formed connection state, no mutating store operation
ever reverts `processed` from true to false for any record (identified by
its row id), so the flag transitions at most once from false to true; and
`update_email_classification` on a record — already processed or not —
overwrites `category` and `urgency` (last write wins) while leaving
`processed = true`. -/
theorem c3_monotonic_processed (conn : Conn) (op : StoreOp)
    (message_id category urgency : String) (now : Nat)
    (hwf : WFTables conn.live) :
    (∀ e' ∈ (applyOp op conn).live.emails, ∀ e ∈ conn.live.emails,
      e'.id = e.id → e.processed = true → e'.processed = true) ∧
    (∀ e' ∈ (update_email_classification conn message_id category urgency now).2.live.emails,
      e'.message_id = message_id →
        e'.processed = true ∧ e'.category = some category ∧
        e'.urgency = some urgency) := by
  constructor
  · intro e' he' e he hid hproc
    cases op with
    | addOp info n =>
      rcases add_email_emails_cases conn info n e' he' with h | h
      · rw [mem_unique_id hwf.2 e' h e he hid]
        exact hproc
      · exfalso
        have hlt := hwf.1 e he
        have : e'.id = conn.live.nextEmailId := by rw [h]; rfl
        omega
    | updateOp m c u n =>
      have he'' : e' ∈ (update_email_classification conn m c u n).2.live.emails := he'
      rw [update_live_emails] at he''
      obtain ⟨e0, he0, rfl⟩ := List.mem_map.mp he''
      rw [updateRow_id] at hid
      rw [mem_unique_id hwf.2 e0 he0 e he hid]
      exact updateRow_processed_mono _ _ _ _ _ hproc
    | markSummaryOp ids n =>
      rcases mark_summary_sent_emails conn ids n with h | h
      · have he'' : e' ∈ conn.live.emails := by rw [← h]; exact he'
        rw [mem_unique_id hwf.2 e' he'' e he hid]
        exact hproc
      · have he'' : e' ∈ conn.live.emails.map
            (fun e => if e.id ∈ ids then { e with updated_at := n } else e) := by
          rw [← h]; exact he'
        obtain ⟨e0, he0, rfl⟩ := List.mem_map.mp he''
        have hid0 : e0.id = e.id := by
          by_cases hin : e0.id ∈ ids <;> simpa [hin] using hid
        have he0e : e0 = e := mem_unique_id hwf.2 e0 he0 e he hid0
        subst he0e
        by_cases hin : e0.id ∈ ids <;> simp [hin, hproc]
  · intro e' he' hmid
    rw [update_live_emails] at he'
    obtain ⟨e0, he0, rfl⟩ := List.mem_map.mp he'
    rw [updateRow_message_id] at hmid
    obtain ⟨hc, hu, hp, _⟩ := updateRow_matched message_id category urgency now e0 hmid
    exact ⟨hp, hc, hu⟩

/-- Witness for C3: updating the already-processed record `m2` of the
demonstration connection keeps every processed record processed and
overwrites its classification. -/
theorem c3_monotonic_processed_witness :
    WFTables demoConn.live ∧
    (∀ e' ∈ (applyOp (StoreOp.updateOp "m2" "notification" "normal" 7) demoConn).live.emails,
      ∀ e ∈ demoConn.live.emails,
        e'.id = e.id → e.processed = true → e'.processed = true) ∧
    (∀ e' ∈ (update_email_classification demoConn "m2" "notification" "normal" 7).2.live.emails,
      e'.message_id = "m2" →
        e'.processed = true ∧ e'.category = some "notification" ∧
        e'.urgency = some "normal") := by
  have h := c3_monotonic_processed demoConn
    (StoreOp.updateOp "m2" "notification" "normal" 7) "m2" "notification" "normal" 7
    (by decide)
  exact ⟨by decide, h.1, h.2⟩

/-! ## Claim C9: the urgent-processed selection -/

/-- `bytesLe` is total. -/
lemma bytesLe_total (a : List Char) : ∀ b, bytesLe a b = true ∨ bytesLe b a = true := by
  induction a with
  | nil => intro b; left; rfl
  | cons c cs ih =>
    intro b
    cases b with
    | nil => right; rfl
    | cons d ds =>
      rcases Nat.lt_trichotomy c.toNat d.toNat with h | h | h
      · left; simp [bytesLe, h]
      · simp only [bytesLe, h, Nat.lt_irrefl, if_false]
        exact ih ds
      · right; simp [bytesLe, h]

/-- `bytesLe` is transitive. -/
lemma bytesLe_trans (a : List Char) :
    ∀ b c, bytesLe a b = true → bytesLe b c = true → bytesLe a c = true := by
  induction a with
  | nil => intro b c _ _; rfl
  | cons x xs ih =>
    intro b c h1 h2
    cases b with
    | nil => simp [bytesLe] at h1
    | cons y ys =>
      cases c with
      | nil => simp [bytesLe] at h2
      | cons z zs =>
        simp only [bytesLe] at h1 h2 ⊢
        by_cases hxy : x.toNat < y.toNat
        · by_cases hyz : y.toNat < z.toNat
          · rw [if_pos (Nat.lt_trans hxy hyz)]
          · by_cases hzy : z.toNat < y.toNat
            · rw [if_neg hyz, if_pos hzy] at h2; simp at h2
            · have : x.toNat < z.toNat := by omega
              rw [if_pos this]
        · by_cases hyx : y.toNat < x.toNat
          · rw [if_neg hxy, if_pos hyx] at h1; simp at h1
          · rw [if_neg hxy, if_neg hyx] at h1
            by_cases hyz : y.toNat < z.toNat
            · have : x.toNat < z.toNat := by omega
              rw [if_pos this]
            · by_cases hzy : z.toNat < y.toNat
              · rw [if_neg hyz, if_pos hzy] at h2; simp at h2
              · rw [if_neg hyz, if_neg hzy] at h2
                have h3 : ¬ x.toNat < z.toNat := by omega
                have h4 : ¬ z.toNat < x.toNat := by omega
                rw [if_neg h3, if_neg h4]
                exact ih ys zs h1 h2

instance : IsTotal EmailRow dateDesc :=
  ⟨fun a b => bytesLe_total b.date_sent.data a.date_sent.data⟩

instance : IsTrans EmailRow dateDesc :=
  ⟨fun a b c hab hbc =>
    bytesLe_trans c.date_sent.data b.date_sent.data a.date_sent.data hbc hab⟩

/-- C9: for every store state, the urgent selection returns exactly the
rows with `processed = true` and `urgency = 'urgent'` (no bound on the
count), arranged in descending `date_sent` order. -/
theorem c9_urgent_processed_selection (conn : Conn) :
    (∀ e : EmailRow, e ∈ get_urgent_unprocessed_emails conn ↔
      e ∈ conn.live.emails ∧ e.processed = true ∧ e.urgency = some "urgent") ∧
    (get_urgent_unprocessed_emails conn).Pairwise dateDesc := by
  constructor
  · intro e
    unfold get_urgent_unprocessed_emails
    rw [List.mem_insertionSort, List.mem_filter]
    constructor
    · rintro ⟨h1, h2⟩
      simp only [Bool.and_eq_true, decide_eq_true_eq] at h2
      exact ⟨h1, h2.1, h2.2⟩
    · rintro ⟨h1, h2, h3⟩
      exact ⟨h1, by simp [h2, h3]⟩
  · exact List.sorted_insertionSort dateDesc _

/-- A demonstration connection matching the spec's example for C9: three
processed records with urgencies urgent, normal, urgent. -/
def demoConn9 : Conn :=
  let t : Tables :=
    { emails := [demoRow 1 "n1" "2025-02-03" true (some "task") (some "urgent"),
                 demoRow 2 "n2" "2025-02-02" true (some "notification") (some "normal"),
                 demoRow 3 "n3" "2025-02-01" true (some "task") (some "urgent")],
      attachments := [], nextEmailId := 4, nextAttachmentId := 1 }
  { live := t, committed := t }

/-- Witness for C9 at the example state: the selection contains exactly
the two urgent processed records, in descending `date_sent` order. -/
theorem c9_urgent_processed_selection_witness :
    (∀ e : EmailRow, e ∈ get_urgent_unprocessed_emails demoConn9 ↔
      e ∈ demoConn9.live.emails ∧ e.processed = true ∧ e.urgency = some "urgent") ∧
    (get_urgent_unprocessed_emails demoConn9).Pairwise dateDesc :=
  c9_urgent_processed_selection demoConn9

/-! ## Claim C7: per-item isolation of the classification batch -/

/-- Specification of the per-record loop: the processed/failed counters
count exactly the records whose classification succeeded/raised, every
already-processed `message_id` stays processed, and every record whose
classification succeeded ends marked processed. The precondition — every
record of the worklist has a row with its `message_id` — lets the loop's
UPDATE always match, so a persistence miss never occurs. -/
lemma classifyLoop_spec (classifier : EmailRow → Except Unit (String × String))
    (now : Nat) :
    ∀ (todo : List EmailRow) (conn : Conn) (p f : Nat),
      (∀ e ∈ todo, ∃ r ∈ conn.live.emails, r.message_id = e.message_id) →
      (classifyLoop classifier now todo conn p f).1 =
          p + todo.countP (fun e => (classifier e).isOk) ∧
        (classifyLoop classifier now todo conn p f).2.1 =
          f + todo.countP (fun e => !(classifier e).isOk) ∧
        (∀ mid : String,
          (∃ r ∈ conn.live.emails, r.message_id = mid ∧ r.processed = true) →
          ∃ r ∈ (classifyLoop classifier now todo conn p f).2.2.live.emails,
            r.message_id = mid ∧ r.processed = true) ∧
        (∀ e ∈ todo, (classifier e).isOk = true →
          ∃ r ∈ (classifyLoop classifier now todo conn p f).2.2.live.emails,
            r.message_id = e.message_id ∧ r.processed = true) := by
  intro todo
  induction todo with
  | nil =>
    intro conn p f _
    refine ⟨by simp [classifyLoop], by simp [classifyLoop], ?_, ?_⟩
    · intro mid h; exact h
    · intro e he; exact absurd he (List.not_mem_nil e)
  | cons e rest ih =>
    intro conn p f hex
    cases hcl : classifier e with
    | error u =>
      have hstep : classifyLoop classifier now (e :: rest) conn p f =
          classifyLoop classifier now rest conn p (f + 1) := by
        simp [classifyLoop, hcl]
      obtain ⟨h1, h2, h3, h4⟩ :=
        ih conn p (f + 1) (fun x hx => hex x (List.mem_cons_of_mem _ hx))
      rw [hstep]
      refine ⟨?_, ?_, h3, ?_⟩
      · rw [h1, List.countP_cons]
        simp [hcl, Except.isOk, Except.toBool]
      · rw [h2, List.countP_cons]
        simp [hcl, Except.isOk, Except.toBool]
        omega
      · intro x hx hxok
        rcases List.mem_cons.mp hx with rfl | hx'
        · rw [hcl] at hxok; simp [Except.isOk, Except.toBool] at hxok
        · exact h4 x hx' hxok
    | ok cu =>
      obtain ⟨category, urgency⟩ := cu
      have hmatch :
          (update_email_classification conn e.message_id category urgency now).1 = true :=
        (update_matched_iff conn e.message_id category urgency now).mpr
          (hex e (List.mem_cons_self _ _))
      have hstep : classifyLoop classifier now (e :: rest) conn p f =
          classifyLoop classifier now rest
            (update_email_classification conn e.message_id category urgency now).2
            (p + 1) f := by
        simp [classifyLoop, hcl, hmatch]
      have hex' : ∀ x ∈ rest,
          ∃ r ∈ (update_email_classification conn e.message_id category urgency now).2.live.emails,
            r.message_id = x.message_id :=
        fun x hx => update_preserves_mid conn e.message_id category urgency now
          x.message_id (hex x (List.mem_cons_of_mem _ hx))
      obtain ⟨h1, h2, h3, h4⟩ :=
        ih (update_email_classification conn e.message_id category urgency now).2
          (p + 1) f hex'
      rw [hstep]
      refine ⟨?_, ?_, ?_, ?_⟩
      · rw [h1, List.countP_cons]
        simp [hcl, Except.isOk, Except.toBool]
        omega
      · rw [h2, List.countP_cons]
        simp [hcl, Except.isOk, Except.toBool]
      · intro mid hmid
        exact h3 mid
          (update_preserves_processed conn e.message_id category urgency now mid hmid)
      · intro x hx hxok
        rcases List.mem_cons.mp hx with rfl | hx'
        · exact h3 x.message_id
            (update_marks_processed conn x.message_id category urgency now
              (hex x (List.mem_cons_self _ _)))
        · exact h4 x hx' hxok

/-- Every fetched unprocessed record is a stored row. -/
lemma get_unprocessed_sub (conn : Conn) (limit : Nat) :
    ∀ e ∈ get_unprocessed_emails conn limit, e ∈ conn.live.emails := by
  intro e he
  unfold get_unprocessed_emails at he
  have h1 : e ∈ List.insertionSort dateDesc
      (conn.live.emails.filter (fun e => !e.processed)) :=
    List.take_subset _ _ he
  exact (List.mem_filter.mp ((List.mem_insertionSort dateDesc).mp h1)).1

/-- C7: for every batch of fetched unprocessed records (with the store and
the backend reachable), the batch reports the fetched count as total, the
records whose classification succeeded as processed and the records whose
classification raised as failed — one record's failure never aborts the
loop — and every non-failing record ends marked processed in the store. -/
theorem c7_batch_isolation (conn : Conn) (limit : Nat)
    (classifier : EmailRow → Except Unit (String × String)) (now : Nat)
    (hne : get_unprocessed_emails conn limit ≠ []) :
    (classify_emails true conn limit classifier true now).1 =
      BatchOutcome.finished (get_unprocessed_emails conn limit).length
        ((get_unprocessed_emails conn limit).countP (fun e => (classifier e).isOk))
        ((get_unprocessed_emails conn limit).countP (fun e => !(classifier e).isOk)) ∧
    (∀ e ∈ get_unprocessed_emails conn limit, (classifier e).isOk = true →
      ∃ r ∈ (classify_emails true conn limit classifier true now).2.live.emails,
        r.message_id = e.message_id ∧ r.processed = true) := by
  have hsub : ∀ e ∈ get_unprocessed_emails conn limit,
      ∃ r ∈ conn.live.emails, r.message_id = e.message_id :=
    fun e he => ⟨e, get_unprocessed_sub conn limit e he, rfl⟩
  obtain ⟨h1, h2, _h3, h4⟩ :=
    classifyLoop_spec classifier now (get_unprocessed_emails conn limit) conn 0 0 hsub
  have hni : (get_unprocessed_emails conn limit).isEmpty = false := by
    cases hE : (get_unprocessed_emails conn limit).isEmpty
    · rfl
    · exact absurd (List.isEmpty_iff.mp hE) hne
  have hunf : classify_emails true conn limit classifier true now =
      (BatchOutcome.finished (get_unprocessed_emails conn limit).length
        (classifyLoop classifier now (get_unprocessed_emails conn limit) conn 0 0).1
        (classifyLoop classifier now (get_unprocessed_emails conn limit) conn 0 0).2.1,
       (classifyLoop classifier now (get_unprocessed_emails conn limit) conn 0 0).2.2) := by
    simp [classify_emails, hni]
  rw [hunf]
  constructor
  · rw [h1, h2]
    simp
  · intro e he hok
    exact h4 e he hok

/-- A demonstration connection with five unprocessed records, matching the
spec's batch-isolation example. -/
def demoConn7 : Conn :=
  let t : Tables :=
    { emails := [demoRow 1 "b1" "2025-03-05" false none none,
                 demoRow 2 "b2" "2025-03-04" false none none,
                 demoRow 3 "b3" "2025-03-03" false none none,
                 demoRow 4 "b4" "2025-03-02" false none none,
                 demoRow 5 "b5" "2025-03-01" false none none],
      attachments := [], nextEmailId := 6, nextAttachmentId := 1 }
  { live := t, committed := t }

/-- A classifier whose call raises exactly on the third record of the
demonstration batch. -/
def demoClassifier7 : EmailRow → Except Unit (String × String) :=
  fun e => if e.message_id = "b3" then Except.error ()
           else Except.ok ("task", "normal")

/-- Witness for C7 at the example batch: with 5 unprocessed records where
record 3's classification raises, the batch reports 4 succeeded and
1 failed, and the non-failing records are marked processed. -/
theorem c7_batch_isolation_witness :
    (get_unprocessed_emails demoConn7 50 ≠ []) ∧
    (classify_emails true demoConn7 50 demoClassifier7 true 9).1 =
      BatchOutcome.finished 5 4 1 ∧
    (∀ e ∈ get_unprocessed_emails demoConn7 50, (demoClassifier7 e).isOk = true →
      ∃ r ∈ (classify_emails true demoConn7 50 demoClassifier7 true 9).2.live.emails,
        r.message_id = e.message_id ∧ r.processed = true) := by
  have h := c7_batch_isolation demoConn7 50 demoClassifier7 9 (by decide)
  refine ⟨by decide, ?_, h.2⟩
  rw [h.1]
  decide

/-! ## Claim C2: atomicity of `add_email` -/

deriving instance DecidableEq for Except

/-- An empty freshly-created database connection. -/
def connC2 : Conn :=
  let t : Tables := { emails := [], attachments := [], nextEmailId := 1, nextAttachmentId := 1 }
  { live := t, committed := t }

/-- A record with two attachments whose second attachment insert raises. -/
def infoC2a : EmailInfo :=
  { message_id := some "msg-a", subject := some "first",
    attachments := [AttIn.ok (some "f1.txt") (some 10) (some "text/plain"), AttIn.bad] }

/-- An ordinary later record with no attachments. -/
def infoC2b : EmailInfo :=
  { message_id := some "msg-b", subject := some "second" }

/-- C2 evaluated at the failing input: `add_email` of `infoC2a` raises on
the second attachment (so the call itself commits nothing — at that
moment the claim still holds), but the message row and the first
attachment remain pending on the connection, and the very next
successful `add_email` on the same connection commits them: afterwards
the store durably holds the `msg-a` message row with only 1 of its 2
attachments. The message row IS persisted by a later operation on the
same connection, contradicting the atomicity stated by the claim (the
source never rolls back; `sync_emails` catches the exception and keeps
using the connection). -/
theorem c2_add_not_atomic :
    (add_email connC2 infoC2a 0).1 = Except.error () ∧
    (¬ ∃ e ∈ (add_email connC2 infoC2a 0).2.committed.emails, e.message_id = "msg-a") ∧
    (add_email (add_email connC2 infoC2a 0).2 infoC2b 1).1 = Except.ok 2 ∧
    (∃ e ∈ (add_email (add_email connC2 infoC2a 0).2 infoC2b 1).2.committed.emails,
      e.message_id = "msg-a" ∧ e.id = 1) ∧
    ((add_email (add_email connC2 infoC2a 0).2 infoC2b 1).2.committed.attachments.filter
      (fun a => decide (a.email_id = 1))).length = 1 ∧
    infoC2a.attachments.length = 2 := by
  decide
